import Mathlib

/-!
# Verification of scripts/validate_templates.py

A shallow embedding of the template-manifest validator.  The script loads a
manifest (index.json, an array of category objects), a JSON schema, and the
listing of the templates directory, and runs four checks: schema validation,
file consistency, duplicate template names, and required thumbnails.

Modelling conventions:
* Python strings are Lean Strings; code-point level operations
  (slicing, startswith, isdigit, split, replace, len) are modelled on
  String.data (Python indexes by code point, as List Char does).
  Python str.isdigit is modelled for ASCII digits, which covers every
  filename the script manipulates.
* The templates directory is a list of file names (the names of the
  regular files returned by iterdir); Path.exists is list membership.
* Python sets are lists with insert-if-absent (membership-faithful),
  dicts are association lists updated only at fresh keys.
* jsonschema is an external library (out of scope per the design):
  its outcome is an oracle value.  A schema file that is missing is
  detected before any check; a schema file that fails to PARSE raises
  json.JSONDecodeError inside validate_schema, which is not a
  jsonschema.ValidationError and therefore lands in the generic
  `except Exception` branch (SchemaOutcome.exn).
-/

namespace ValidateTemplates

/-- Python `s.startswith(p)` (code-point semantics). -/
def pyStartsWith (s p : String) : Bool := p.data.isPrefixOf s.data

/-- Python `s.endswith(p)` (code-point semantics). -/
def pyEndsWith (s p : String) : Bool := p.data.isSuffixOf s.data

/-- Python `s[n:]` (code-point slicing). -/
def pyDrop (s : String) (n : Nat) : String := ⟨s.data.drop n⟩

/-- Python `len(s)` (counts code points). -/
def pyLen (s : String) : Nat := s.data.length

/-- Python `s.split('.')[0]`: the prefix of `s` before the first `.`
(`split` always returns at least one element, the whole string when no
separator occurs). -/
def pySplitDotHead (s : String) : String := ⟨s.data.takeWhile (fun c => !(c == '.'))⟩

/-- Python `s.isdigit()` restricted to ASCII: true iff `s` is nonempty and
every character is a decimal digit. -/
def pyIsdigit (s : String) : Bool := !s.data.isEmpty && s.data.all Char.isDigit

/-- One step of Python `str.replace` scanning: at each position, if the
pattern matches, emit the replacement and skip the match, else copy one
character.  `fuel` bounds the recursion (instantiated with the length of
the string, which suffices because a nonempty pattern consumes at least
one character per match). -/
def replGo (pat rep : List Char) : Nat → List Char → List Char
  | _, [] => []
  | 0, s => s
  | Nat.succ fuel, c :: rest =>
    if pat.isPrefixOf (c :: rest) then rep ++ replGo pat rep fuel ((c :: rest).drop pat.length)
    else c :: replGo pat rep fuel rest

/-- Python `s.replace(pat, rep)`: replace every non-overlapping occurrence,
left to right.  (The script only calls it with the nonempty pattern
`".json"`; the empty-pattern case returns `s` unchanged here.) -/
def pyReplace (s pat rep : String) : String :=
  if pat.data.isEmpty then s else ⟨replGo pat.data rep.data s.data.length s.data⟩

/-- A template entry of the manifest.  The script reads name and
mediaSubtype with a default of the empty string; they are modelled by
Option fields read with `getD ""`.  Other manifest fields are not
inspected by the script. -/
structure Template where
  name : Option String
  mediaSubtype : Option String
deriving DecidableEq

/-- A category object of the manifest: a title and a template list, both
possibly absent (the script reads them with get). -/
structure Category where
  title : Option String
  templates : Option (List Template)
deriving DecidableEq

/-- Python set modelled as a list: adding an element keeps the list
unchanged when it is already present. -/
def insertSet (s : List String) (x : String) : List String :=
  if x ∈ s then s else s ++ [x]

/-- Workflow file name built from a template name (line 60). -/
def workflowName (name : String) : String := name ++ ".json"

/-- Numbered thumbnail file name for a template (line 68). -/
def thumbName (name : String) (i : Nat) (ms : String) : String :=
  name ++ "-" ++ toString i ++ "." ++ ms

/-- Printed form of the category title: Python prints None for a missing key. -/
def titleStr : Option String → String
  | some t => t
  | none => "None"

/-- Error message of line 56. -/
def missingNameMsg (title : Option String) : String :=
  "Template in category \x27" ++ titleStr title ++ "\x27 missing name"

/-- Error message of line 77. -/
def wfMissingMsg (w : String) : String :=
  "Referenced workflow file not found: " ++ w

/-- Error message of line 83. -/
def thMissingMsg (t : String) : String :=
  "Referenced thumbnail file not found: " ++ t

/-- Warning message of line 99. -/
def owMsg (f : String) : String :=
  "Workflow file not referenced in index.json: " ++ f

/-- Warning message of line 116. -/
def omMsg (f : String) : String :=
  "Media file not referenced in index.json: " ++ f

/-- The nested `for category in index_data: for template in ...` traversal,
flattened to (category title, template) pairs in manifest order. -/
def fcEntries (index_data : List Category) : List (Option String × Template) :=
  index_data.flatMap fun c => (c.templates.getD []).map fun t => (c.title, t)

/-- Body of the numbered-thumbnail probe (lines 67-71): if
`<name>-<i>.<ms>` exists in the directory it is added to the
referenced-thumbnails set. -/
def thumbStep (dir : List String) (name ms : String) (refT : List String) (i : Nat) :
    List String :=
  if thumbName name i ms ∈ dir then insertSet refT (thumbName name i ms) else refT

/-- Body of the first loop of check_file_consistency (lines 52-71) for one
template: accumulator is (errors, referenced_workflows,
referenced_thumbnails). -/
def fcStep (dir : List String) (acc : List String × List String × List String)
    (e : Option String × Template) : List String × List String × List String :=
  let name := e.2.name.getD ""
  if name = "" then (acc.1 ++ [missingNameMsg e.1], acc.2.1, acc.2.2)
  else
    let refW := insertSet acc.2.1 (workflowName name)
    let ms := e.2.mediaSubtype.getD ""
    if ms = "" then (acc.1, refW, acc.2.2)
    else (acc.1, refW, (List.range' 1 9).foldl (thumbStep dir name ms) acc.2.2)

/-- Lines 45-71 of check_file_consistency: the collection phase. -/
def fcPhase1 (index_data : List Category) (dir : List String) :
    List String × List String × List String :=
  (fcEntries index_data).foldl (fcStep dir) ([], [], [])

/-- Special file names excluded from the listing (line 89). -/
def special_files : List String := ["index.json", "index.schema.json", ".gitignore", "README.md"]

/-- Directory listing minus the special files (lines 86-90). -/
def fcAllFiles (dir : List String) : List String :=
  dir.filter (fun f => !(f ∈ special_files : Bool))

/-- Workflow files: listing entries ending in .json (line 93). -/
def fcWorkflowFiles (dir : List String) : List String :=
  (fcAllFiles dir).filter (fun f => pyEndsWith f ".json")

/-- Media files: the listing minus the workflow files (line 94). -/
def fcMediaFiles (dir : List String) : List String :=
  (fcAllFiles dir).filter (fun f => !(pyEndsWith f ".json"))

/-- Referenced workflow files absent from the directory (lines 74-77). -/
def fcMissingWorkflows (refW dir : List String) : List String :=
  refW.filter (fun w => !(w ∈ dir : Bool))

/-- Referenced thumbnail files absent from the directory (lines 80-83). -/
def fcMissingThumbs (refT dir : List String) : List String :=
  refT.filter (fun t => !(t ∈ dir : Bool))

/-- Orphaned workflows: workflow files minus the referenced ones (line 97). -/
def fcOrphanedWorkflows (refW dir : List String) : List String :=
  (fcWorkflowFiles dir).filter (fun f => !(f ∈ refW : Bool))

/-- Referenced template names: each referenced workflow with .json stripped by replace (line 107). -/
def fcRefNames (refW : List String) : List String :=
  refW.map (fun w => pyReplace w ".json" "")

/-- Line 108: the media file matches a referenced template name when it
starts with `<name>-` and the part of the remainder before the first `.`
is all digits. -/
def mediaMatches (mf tn : String) : Bool :=
  pyStartsWith mf (tn ++ "-") && pyIsdigit (pySplitDotHead (pyDrop mf (pyLen tn + 1)))

/-- Potential orphans (lines 103-113): media files matching no
referenced template name. -/
def fcPotentialOrphans (refW dir : List String) : List String :=
  (fcMediaFiles dir).filter (fun mf => !((fcRefNames refW).any (fun tn => mediaMatches mf tn)))

/-- check_file_consistency (lines 43-118): returns
(len(errors) == 0, errors, warnings). -/
def check_file_consistency (index_data : List Category) (dir : List String) :
    Bool × List String × List String :=
  let p := fcPhase1 index_data dir
  let errors := p.1 ++ (fcMissingWorkflows p.2.1 dir).map wfMissingMsg
      ++ (fcMissingThumbs p.2.2 dir).map thMissingMsg
  let warnings := (fcOrphanedWorkflows p.2.1 dir).map owMsg
      ++ (fcPotentialOrphans p.2.1 dir).map omMsg
  (errors.isEmpty, errors, warnings)

/-- Error message of lines 131-134. -/
def dupMsg (name origTitle curTitle : String) : String :=
  "Duplicate template name \x27" ++ name ++ "\x27 found in categories \x27"
    ++ origTitle ++ "\x27 and \x27" ++ curTitle ++ "\x27"

/-- The traversal of check_duplicate_names (lines 126-129), flattened to
(category title with default 'Unknown', name with default '') pairs. -/
def dupEntries (index_data : List Category) : List (String × String) :=
  index_data.flatMap fun c =>
    (c.templates.getD []).map fun t => (c.title.getD "Unknown", t.name.getD "")

/-- Lookup in the seen-names dict, modelled as an association list
from name to first-seen category title. -/
def lookupSeen (n : String) (seen : List (String × String)) : Option String :=
  (seen.find? (fun p => p.1 == n)).map (fun p => p.2)

/-- The loop of check_duplicate_names (lines 126-136): on a name already
seen, emit the duplicate error; otherwise record the name with the current
category title. -/
def dupGo (seen : List (String × String)) : List (String × String) → List String
  | [] => []
  | (t, n) :: rest =>
    match lookupSeen n seen with
    | some t0 => dupMsg n t0 t :: dupGo seen rest
    | none => dupGo ((n, t) :: seen) rest

/-- check_duplicate_names (lines 121-138). -/
def check_duplicate_names (index_data : List Category) : Bool × List String :=
  let errors := dupGo [] (dupEntries index_data)
  (errors.isEmpty, errors)

/-- The template traversal of check_required_thumbnails (lines 145-146). -/
def reqEntries (index_data : List Category) : List Template :=
  index_data.flatMap fun c => c.templates.getD []

/-- Error message of line 156. -/
def reqMsg (name ms : String) : String :=
  "Missing required thumbnail: " ++ thumbName name 1 ms

/-- Loop body of check_required_thumbnails (lines 146-156): skip templates
missing name or mediaSubtype, otherwise require `<name>-1.<ms>` on disk. -/
def reqStep (dir : List String) (errs : List String) (t : Template) : List String :=
  let name := t.name.getD ""
  let ms := t.mediaSubtype.getD ""
  if name = "" ∨ ms = "" then errs
  else if thumbName name 1 ms ∈ dir then errs
  else errs ++ [reqMsg name ms]

/-- check_required_thumbnails (lines 141-158). -/
def check_required_thumbnails (index_data : List Category) (dir : List String) :
    Bool × List String :=
  let errors := (reqEntries index_data).foldl (reqStep dir) []
  (errors.isEmpty, errors)

/-- Outcome of the jsonschema interaction inside validate_schema
(lines 29-40): success, a jsonschema.ValidationError (message and path),
or any other exception — including a json.JSONDecodeError raised while
loading the schema file, since that is not a ValidationError. -/
inductive SchemaOutcome where
  | ok
  | validationError (message : String) (path : List String)
  | exn (message : String)
deriving DecidableEq

/-- validate_schema (lines 25-40) as a function of the jsonschema
outcome. -/
def validate_schema (o : SchemaOutcome) : Bool × List String :=
  match o with
  | .ok => (true, [])
  | .validationError m p =>
    (false, ["Schema validation error: " ++ m]
      ++ if p.isEmpty then [] else ["  at path: " ++ String.intercalate "." p])
  | .exn m => (false, ["Unexpected error during validation: " ++ m])

/-- The external state main (lines 161-255) consults: whether index.json
and index.schema.json exist, the result of parsing index.json, the
jsonschema outcome, the directory listing, and the GITHUB_ACTIONS flag. -/
structure World where
  indexExists : Bool
  schemaExists : Bool
  indexLoad : Except String (List Category)
  schemaOutcome : SchemaOutcome
  fs : List String
  isGithubActions : Bool

def index_path_str : String := "templates/index.json"

def schema_path_str : String := "templates/index.schema.json"

/-- The two lines printed before any input check (lines 173-174). -/
def headerLines : List String :=
  ["🔍 Validating ComfyUI Workflow Templates...", "   Templates directory: templates"]

def idxMissingMsg : String := "❌ Error: index.json not found at " ++ index_path_str

def schMissingMsg : String := "❌ Error: index.schema.json not found at " ++ schema_path_str

def loadErrMsg (e : String) : String := "❌ Error loading index.json: " ++ e

def stage1Line : String := "\n1️⃣  Validating against JSON schema..."

def stage2Line : String := "\n2️⃣  Checking file consistency..."

def stage3Line : String := "\n3️⃣  Checking for duplicate names..."

def stage4Line : String := "\n4️⃣  Checking required thumbnails..."

/-- GitHub Actions warning annotation (line 238). -/
def ghWarn (gh : Bool) (s : String) : List String :=
  if gh then ["::warning file=templates/index.json::" ++ s] else []

/-- GitHub Actions error annotation (line 248). -/
def ghError (gh : Bool) (s : String) : List String :=
  if gh then ["::error file=templates/index.json::" ++ s] else []

/-- Separator line: a newline followed by fifty equals signs (line 241). -/
def sepLine : String := "\n" ++ ⟨List.replicate 50 '='⟩

/-- main (lines 161-255): returns the exit code and the printed lines. -/
def main (w : World) : Nat × List String :=
  if !w.indexExists then (1, headerLines ++ [idxMissingMsg])
  else if !w.schemaExists then (1, headerLines ++ [schMissingMsg])
  else
    match w.indexLoad with
    | .error e => (1, headerLines ++ [loadErrMsg e])
    | .ok index_data =>
      let r1 := validate_schema w.schemaOutcome
      let out1 := [stage1Line,
        if r1.1 then "   ✅ Schema validation passed" else "   ❌ Schema validation failed"]
      let all_errors1 := if r1.1 then [] else r1.2
      let r2 := check_file_consistency index_data w.fs
      let out2 := [stage2Line,
        if r2.1 && r2.2.2.isEmpty then "   ✅ File consistency check passed"
        else if r2.1 then "   ⚠️  File consistency check passed with warnings"
        else "   ❌ File consistency check failed"]
      let all_errors2 := all_errors1 ++ r2.2.1
      let all_warnings := r2.2.2
      let r3 := check_duplicate_names index_data
      let out3 := [stage3Line,
        if r3.1 then "   ✅ No duplicate names found" else "   ❌ Duplicate names found"]
      let all_errors3 := if r3.1 then all_errors2 else all_errors2 ++ r3.2
      let r4 := check_required_thumbnails index_data w.fs
      let out4 := [stage4Line,
        if r4.1 then "   ✅ All templates have thumbnails" else "   ❌ Missing thumbnails"]
      let all_errors := if r4.1 then all_errors3 else all_errors3 ++ r4.2
      let warnOut := if all_warnings.isEmpty then []
        else "\nWarnings:" :: all_warnings.flatMap
          (fun s => ("  ⚠️  " ++ s) :: ghWarn w.isGithubActions s)
      let out := headerLines ++ out1 ++ out2 ++ out3 ++ out4 ++ warnOut ++ [sepLine]
      if all_errors.isEmpty then
        (0, out ++ [if all_warnings.isEmpty then "✅ All validations passed!"
          else "✅ All validations passed with " ++ toString all_warnings.length
            ++ " warning(s)!"])
      else
        (1, out ++ ("❌ Validation failed with " ++ toString all_errors.length
            ++ " error(s):\n")
          :: all_errors.flatMap (fun e => ("   • " ++ e) :: ghError w.isGithubActions e))

/-- The full error list accumulated by main across the four checks
(lines 192-229): schema errors, file-consistency errors, duplicate-name
errors, required-thumbnail errors, in that order. -/
def aggregated_errors (w : World) (index_data : List Category) : List String :=
  (validate_schema w.schemaOutcome).2 ++ (check_file_consistency index_data w.fs).2.1
    ++ (check_duplicate_names index_data).2 ++ (check_required_thumbnails index_data w.fs).2

/-! ## Basic lemmas about the set and dict models -/

theorem mem_insertSet {l : List String} {x y : String} :
    x ∈ insertSet l y ↔ x ∈ l ∨ x = y := by
  unfold insertSet
  split
  · rename_i h
    constructor
    · exact fun hx => Or.inl hx
    · rintro (hx | rfl)
      · exact hx
      · exact h
  · simp

theorem lookupSeen_cons (m n t : String) (seen : List (String × String)) :
    lookupSeen m ((n, t) :: seen) = if n = m then some t else lookupSeen m seen := by
  by_cases h : n = m <;> simp [lookupSeen, List.find?_cons, h]

/-! ## Lemmas about the duplicate-name loop -/

/-- If no name of the list `l` is recorded in `seen` and the names of `l` are
pairwise distinct, the duplicate loop reports nothing. -/
theorem dupGo_eq_nil {l : List (String × String)} {seen : List (String × String)}
    (h1 : ∀ p ∈ l, lookupSeen p.2 seen = none)
    (h2 : (l.map Prod.snd).Nodup) : dupGo seen l = [] := by
  induction l generalizing seen with
  | nil => rfl
  | cons e rest ih =>
    obtain ⟨t, n⟩ := e
    have hn : lookupSeen n seen = none := h1 (t, n) (List.mem_cons_self _ _)
    rw [List.map_cons, List.nodup_cons] at h2
    simp only [dupGo, hn]
    apply ih
    · intro p hp
      rw [lookupSeen_cons]
      have hpn : p.2 ≠ n := by
        intro hcontra
        have hmem : p.2 ∈ List.map Prod.snd rest := List.mem_map.mpr ⟨p, hp, rfl⟩
        rw [hcontra] at hmem
        exact h2.1 hmem
      rw [if_neg (fun h => hpn h.symm)]
      exact h1 p (List.mem_cons_of_mem _ hp)
    · exact h2.2

/-- If the name `n` is already recorded with original title `tA`, exactly one later
occurrence of `n` (with title `tB`) remains in `l`, no other name of `l`
is recorded, and the other names are pairwise distinct, the loop reports
exactly the one duplicate. -/
theorem dupGo_single {l seen : List (String × String)} {n tA tB : String}
    (hA : lookupSeen n seen = some tA)
    (hf : l.filter (fun p => p.2 == n) = [(tB, n)])
    (h1 : ∀ p ∈ l, p.2 ≠ n → lookupSeen p.2 seen = none)
    (h2 : ((l.map Prod.snd).filter (fun m => !(m == n))).Nodup) :
    dupGo seen l = [dupMsg n tA tB] := by
  induction l generalizing seen with
  | nil => simp at hf
  | cons e rest ih =>
    obtain ⟨t, m⟩ := e
    by_cases hm : m = n
    · subst hm
      rw [List.filter_cons_of_pos (by simp)] at hf
      injection hf with hf1 hf2
      injection hf1 with hfa hfb
      subst hfa
      simp only [dupGo, hA]
      have hne : ∀ x ∈ List.map Prod.snd rest, x ≠ m := by
        intro x hx
        obtain ⟨p, hp, hpx⟩ := List.mem_map.mp hx
        have hfil := List.filter_eq_nil_iff.mp hf2 p hp
        simp only [beq_iff_eq] at hfil
        rw [← hpx]
        exact hfil
      have hrest : dupGo seen rest = [] := by
        apply dupGo_eq_nil
        · intro p hp
          apply h1 p (List.mem_cons_of_mem _ hp)
          exact hne p.2 (List.mem_map.mpr ⟨p, hp, rfl⟩)
        · rw [List.map_cons, List.filter_cons_of_neg (by simp)] at h2
          rwa [List.filter_eq_self.mpr (fun x hx => by simp [hne x hx])] at h2
      rw [hrest]
    · rw [List.filter_cons_of_neg (by simp [hm])] at hf
      have hmnone : lookupSeen m seen = none := h1 (t, m) (List.mem_cons_self _ _) hm
      simp only [dupGo, hmnone]
      rw [List.map_cons, List.filter_cons_of_pos (by simp [hm])] at h2
      rw [List.nodup_cons] at h2
      apply ih
      · rw [lookupSeen_cons, if_neg hm]
        exact hA
      · exact hf
      · intro p hp hpn
        rw [lookupSeen_cons]
        have hpm : p.2 ≠ m := by
          intro hcontra
          apply h2.1
          rw [← hcontra]
          exact List.mem_filter.mpr ⟨List.mem_map.mpr ⟨p, hp, rfl⟩, by simp [hpn]⟩
        rw [if_neg (fun h => hpm h.symm)]
        exact h1 p (List.mem_cons_of_mem _ hp) hpn
      · exact h2.2

/-- If the name `n` is not yet recorded, its occurrences in `l` are exactly
`(tA, n)` then `(tB, n)` in order, no other name of `l` is recorded, and
the other names are pairwise distinct, the loop reports exactly one
duplicate naming `tA` as the original and `tB` as the current category. -/
theorem dupGo_pair {l seen : List (String × String)} {n tA tB : String}
    (hA : lookupSeen n seen = none)
    (hf : l.filter (fun p => p.2 == n) = [(tA, n), (tB, n)])
    (h1 : ∀ p ∈ l, p.2 ≠ n → lookupSeen p.2 seen = none)
    (h2 : ((l.map Prod.snd).filter (fun m => !(m == n))).Nodup) :
    dupGo seen l = [dupMsg n tA tB] := by
  induction l generalizing seen with
  | nil => simp at hf
  | cons e rest ih =>
    obtain ⟨t, m⟩ := e
    by_cases hm : m = n
    · subst hm
      rw [List.filter_cons_of_pos (by simp)] at hf
      injection hf with hf1 hf2
      injection hf1 with hfa hfb
      subst hfa
      simp only [dupGo, hA]
      rw [List.map_cons, List.filter_cons_of_neg (by simp)] at h2
      apply dupGo_single
      · rw [lookupSeen_cons, if_pos rfl]
      · exact hf2
      · intro p hp hpn
        rw [lookupSeen_cons, if_neg (fun h => hpn h.symm)]
        exact h1 p (List.mem_cons_of_mem _ hp) hpn
      · exact h2
    · rw [List.filter_cons_of_neg (by simp [hm])] at hf
      have hmnone : lookupSeen m seen = none := h1 (t, m) (List.mem_cons_self _ _) hm
      simp only [dupGo, hmnone]
      rw [List.map_cons, List.filter_cons_of_pos (by simp [hm])] at h2
      rw [List.nodup_cons] at h2
      apply ih
      · rw [lookupSeen_cons, if_neg hm]
        exact hA
      · exact hf
      · intro p hp hpn
        rw [lookupSeen_cons]
        have hpm : p.2 ≠ m := by
          intro hcontra
          apply h2.1
          rw [← hcontra]
          exact List.mem_filter.mpr ⟨List.mem_map.mpr ⟨p, hp, rfl⟩, by simp [hpn]⟩
        rw [if_neg (fun h => hpm h.symm)]
        exact h1 p (List.mem_cons_of_mem _ hp) hpn
      · exact h2.2

/-- Any occurrence of a name that is already recorded, or that occurred
earlier in the list, produces a duplicate error for its own category. -/
theorem dupGo_mem (p s : List (String × String)) (seen : List (String × String))
    (t n : String)
    (h : lookupSeen n seen ≠ none ∨ n ∈ p.map Prod.snd) :
    ∃ t0, dupMsg n t0 t ∈ dupGo seen (p ++ (t, n) :: s) := by
  induction p generalizing seen with
  | nil =>
    rcases h with h | h
    · cases hl : lookupSeen n seen with
      | none => exact absurd hl h
      | some t0 =>
        refine ⟨t0, ?_⟩
        simp only [List.nil_append, dupGo, hl]
        exact List.mem_cons_self _ _
    · simp at h
  | cons e p' ih =>
    obtain ⟨t', m⟩ := e
    rw [List.cons_append]
    cases hl : lookupSeen m seen with
    | some t0' =>
      simp only [dupGo, hl]
      have hd : lookupSeen n seen ≠ none ∨ n ∈ p'.map Prod.snd := by
        rcases h with h | h
        · exact Or.inl h
        · rw [List.map_cons, List.mem_cons] at h
          rcases h with rfl | h
          · exact Or.inl (by rw [hl]; exact fun hc => Option.noConfusion hc)
          · exact Or.inr h
      obtain ⟨t0, ht0⟩ := ih _ hd
      exact ⟨t0, List.mem_cons_of_mem _ ht0⟩
    | none =>
      simp only [dupGo, hl]
      apply ih
      by_cases hnm : m = n
      · subst hnm
        refine Or.inl ?_
        rw [lookupSeen_cons, if_pos rfl]
        exact fun hc => Option.noConfusion hc
      · rcases h with h | h
        · refine Or.inl ?_
          rwa [lookupSeen_cons, if_neg hnm]
        · rw [List.map_cons, List.mem_cons] at h
          rcases h with rfl | h
          · exact absurd rfl hnm
          · exact Or.inr h

/-! ## Lemmas about the file-consistency collection phase -/

theorem fcStep_errors_grow (dir : List String)
    (acc : List String × List String × List String) (e : Option String × Template) :
    acc.1 <+: (fcStep dir acc e).1 := by
  by_cases h1 : e.2.name.getD "" = ""
  · simp only [fcStep, if_pos h1]
    exact List.prefix_append _ _
  · by_cases h2 : e.2.mediaSubtype.getD "" = "" <;>
      simp only [fcStep, if_neg h1, if_pos, if_neg, h2, if_true, if_false, ite_true,
        ite_false] <;>
      exact List.prefix_rfl

theorem foldl_fcStep_errors_grow (dir : List String)
    (l : List (Option String × Template)) (acc : List String × List String × List String) :
    acc.1 <+: (l.foldl (fcStep dir) acc).1 := by
  induction l generalizing acc with
  | nil => exact List.prefix_rfl
  | cons e rest ih => exact (fcStep_errors_grow dir acc e).trans (ih _)

theorem fcStep_refW_mono (dir : List String)
    (acc : List String × List String × List String) (e : Option String × Template)
    {x : String} (hx : x ∈ acc.2.1) : x ∈ (fcStep dir acc e).2.1 := by
  by_cases h1 : e.2.name.getD "" = ""
  · simp only [fcStep, if_pos h1]
    exact hx
  · by_cases h2 : e.2.mediaSubtype.getD "" = "" <;>
      simp only [fcStep, if_neg h1, if_pos, if_neg, h2, ite_true, ite_false] <;>
      exact mem_insertSet.mpr (Or.inl hx)

theorem foldl_fcStep_refW_mono (dir : List String)
    (l : List (Option String × Template)) (acc : List String × List String × List String)
    {x : String} (hx : x ∈ acc.2.1) : x ∈ (l.foldl (fcStep dir) acc).2.1 := by
  induction l generalizing acc with
  | nil => exact hx
  | cons e rest ih => exact ih _ (fcStep_refW_mono dir acc e hx)

theorem fcStep_refW_self (dir : List String)
    (acc : List String × List String × List String) (e : Option String × Template)
    (h1 : e.2.name.getD "" ≠ "") :
    workflowName (e.2.name.getD "") ∈ (fcStep dir acc e).2.1 := by
  by_cases h2 : e.2.mediaSubtype.getD "" = "" <;>
    simp only [fcStep, if_neg h1, if_pos, if_neg, h2, ite_true, ite_false] <;>
    exact mem_insertSet.mpr (Or.inr rfl)

theorem fcFold_refW_mem (dir : List String) {l : List (Option String × Template)}
    {ct : Option String} {t : Template} (acc : List String × List String × List String)
    (hmem : (ct, t) ∈ l) (h1 : t.name.getD "" ≠ "") :
    workflowName (t.name.getD "") ∈ (l.foldl (fcStep dir) acc).2.1 := by
  obtain ⟨l1, l2, rfl⟩ := List.append_of_mem hmem
  rw [List.foldl_append, List.foldl_cons]
  exact foldl_fcStep_refW_mono dir l2 _ (fcStep_refW_self dir _ (ct, t) h1)

theorem fcFold_missingName_mem (dir : List String) {l : List (Option String × Template)}
    {ct : Option String} {t : Template} (acc : List String × List String × List String)
    (hmem : (ct, t) ∈ l) (hname : t.name.getD "" = "") :
    missingNameMsg ct ∈ (l.foldl (fcStep dir) acc).1 := by
  obtain ⟨l1, l2, rfl⟩ := List.append_of_mem hmem
  rw [List.foldl_append, List.foldl_cons]
  apply (foldl_fcStep_errors_grow dir l2 _).subset
  simp [fcStep, hname]

theorem fc_missingName_mem (index_data : List Category) (dir : List String)
    {ct : Option String} {t : Template} (hmem : (ct, t) ∈ fcEntries index_data)
    (hname : t.name.getD "" = "") :
    missingNameMsg ct ∈ (check_file_consistency index_data dir).2.1 := by
  simp only [check_file_consistency]
  exact List.mem_append_left _ (List.mem_append_left _
    (fcFold_missingName_mem dir _ hmem hname))

/-! ## The referenced-thumbnails set: every member was probed and exists -/

theorem thumbFold_subdir (dir : List String) (name ms : String) (is : List Nat)
    (refT : List String) (h : ∀ x ∈ refT, x ∈ dir) :
    ∀ x ∈ is.foldl (thumbStep dir name ms) refT, x ∈ dir := by
  induction is generalizing refT with
  | nil => exact h
  | cons i rest ih =>
    rw [List.foldl_cons]
    apply ih
    intro x hx
    unfold thumbStep at hx
    by_cases hc : thumbName name i ms ∈ dir
    · rw [if_pos hc] at hx
      rcases mem_insertSet.mp hx with h' | rfl
      · exact h x h'
      · exact hc
    · rw [if_neg hc] at hx
      exact h x hx

theorem fcStep_refT_subdir (dir : List String)
    (acc : List String × List String × List String) (e : Option String × Template)
    (h : ∀ x ∈ acc.2.2, x ∈ dir) : ∀ x ∈ (fcStep dir acc e).2.2, x ∈ dir := by
  intro x hx
  by_cases h1 : e.2.name.getD "" = ""
  · simp only [fcStep, if_pos h1] at hx
    exact h x hx
  · by_cases h2 : e.2.mediaSubtype.getD "" = ""
    · simp only [fcStep, if_neg h1, if_pos h2] at hx
      exact h x hx
    · simp only [fcStep, if_neg h1, if_neg h2] at hx
      exact thumbFold_subdir dir _ _ _ _ h x hx

theorem fcPhase1_refT_subdir (index_data : List Category) (dir : List String) :
    ∀ x ∈ (fcPhase1 index_data dir).2.2, x ∈ dir := by
  unfold fcPhase1
  generalize fcEntries index_data = l
  have hbase : ∀ x ∈ (([], [], []) : List String × List String × List String).2.2, x ∈ dir := by
    intro x hx
    simp at hx
  generalize hacc : (([], [], []) : List String × List String × List String) = acc
  rw [hacc] at hbase
  clear hacc
  induction l generalizing acc with
  | nil => exact hbase
  | cons e rest ih =>
    rw [List.foldl_cons]
    exact ih _ (fcStep_refT_subdir dir acc e hbase)

/-- The defensive re-check of referenced thumbnails can never fire: the
set only ever receives file names that exist in the directory. -/
theorem fcMissingThumbs_phase1_nil (index_data : List Category) (dir : List String) :
    fcMissingThumbs (fcPhase1 index_data dir).2.2 dir = [] := by
  apply List.filter_eq_nil_iff.mpr
  intro t ht
  simp [fcPhase1_refT_subdir index_data dir t ht]

/-! ## Characterisation of the referenced-thumbnails set -/

theorem mem_thumbFold (dir : List String) (name ms : String) (is : List Nat)
    (refT : List String) (s : String) :
    s ∈ is.foldl (thumbStep dir name ms) refT ↔
      s ∈ refT ∨ ∃ i ∈ is, s = thumbName name i ms ∧ s ∈ dir := by
  induction is generalizing refT with
  | nil => simp
  | cons i rest ih =>
    rw [List.foldl_cons, ih]
    by_cases hc : thumbName name i ms ∈ dir
    · simp only [thumbStep, if_pos hc, mem_insertSet]
      constructor
      · rintro ((h | rfl) | ⟨j, hj, hs, hd⟩)
        · exact Or.inl h
        · exact Or.inr ⟨i, List.mem_cons_self _ _, rfl, hc⟩
        · exact Or.inr ⟨j, List.mem_cons_of_mem _ hj, hs, hd⟩
      · rintro (h | ⟨j, hj, hs, hd⟩)
        · exact Or.inl (Or.inl h)
        · rcases List.mem_cons.mp hj with rfl | hj'
          · exact Or.inl (Or.inr hs)
          · exact Or.inr ⟨j, hj', hs, hd⟩
    · simp only [thumbStep, if_neg hc]
      constructor
      · rintro (h | ⟨j, hj, hs, hd⟩)
        · exact Or.inl h
        · exact Or.inr ⟨j, List.mem_cons_of_mem _ hj, hs, hd⟩
      · rintro (h | ⟨j, hj, hs, hd⟩)
        · exact Or.inl h
        · rcases List.mem_cons.mp hj with rfl | hj'
          · exact absurd (hs ▸ hd) hc
          · exact Or.inr ⟨j, hj', hs, hd⟩

theorem fcStep_refT_char (dir : List String)
    (acc : List String × List String × List String) (e : Option String × Template)
    (s : String) :
    s ∈ (fcStep dir acc e).2.2 ↔ s ∈ acc.2.2 ∨
      (e.2.name.getD "" ≠ "" ∧ e.2.mediaSubtype.getD "" ≠ "" ∧
        ∃ i ∈ List.range' 1 9,
          s = thumbName (e.2.name.getD "") i (e.2.mediaSubtype.getD "") ∧ s ∈ dir) := by
  by_cases h1 : e.2.name.getD "" = ""
  · simp [fcStep, h1]
  · by_cases h2 : e.2.mediaSubtype.getD "" = ""
    · simp [fcStep, h1, h2]
    · simp only [fcStep, if_neg h1, if_neg h2]
      rw [mem_thumbFold]
      simp [h1, h2]

theorem mem_fcFold_refT (dir : List String) (l : List (Option String × Template))
    (acc : List String × List String × List String) (s : String) :
    s ∈ (l.foldl (fcStep dir) acc).2.2 ↔ s ∈ acc.2.2 ∨
      ∃ ct t, (ct, t) ∈ l ∧ t.name.getD "" ≠ "" ∧ t.mediaSubtype.getD "" ≠ "" ∧
        ∃ i ∈ List.range' 1 9,
          s = thumbName (t.name.getD "") i (t.mediaSubtype.getD "") ∧ s ∈ dir := by
  induction l generalizing acc with
  | nil => simp
  | cons e rest ih =>
    obtain ⟨ct0, t0⟩ := e
    rw [List.foldl_cons, ih, fcStep_refT_char]
    constructor
    · rintro ((h | ⟨hn, hm, hi⟩) | ⟨ct, t, hmem, hstuff⟩)
      · exact Or.inl h
      · exact Or.inr ⟨ct0, t0, List.mem_cons_self _ _, hn, hm, hi⟩
      · exact Or.inr ⟨ct, t, List.mem_cons_of_mem _ hmem, hstuff⟩
    · rintro (h | ⟨ct, t, hmem, hn, hm, hi⟩)
      · exact Or.inl (Or.inl h)
      · rcases List.mem_cons.mp hmem with heq | hmem'
        · injection heq with heq1 heq2
          subst heq1
          subst heq2
          exact Or.inl (Or.inr ⟨hn, hm, hi⟩)
        · exact Or.inr ⟨ct, t, hmem', hn, hm, hi⟩

/-! ## The required-thumbnail loop as a filterMap -/

theorem req_foldl_eq (dir : List String) (l : List Template) (errs : List String) :
    l.foldl (reqStep dir) errs = errs ++ l.filterMap (fun t =>
      if t.name.getD "" ≠ "" ∧ t.mediaSubtype.getD "" ≠ "" ∧
          thumbName (t.name.getD "") 1 (t.mediaSubtype.getD "") ∉ dir
      then some (reqMsg (t.name.getD "") (t.mediaSubtype.getD "")) else none) := by
  induction l generalizing errs with
  | nil => simp
  | cons t rest ih =>
    rw [List.foldl_cons, ih, List.filterMap_cons]
    by_cases h1 : t.name.getD "" = ""
    · simp [reqStep, h1]
    · by_cases h2 : t.mediaSubtype.getD "" = ""
      · simp [reqStep, h1, h2]
      · by_cases h3 : thumbName (t.name.getD "") 1 (t.mediaSubtype.getD "") ∈ dir
        · simp [reqStep, h1, h2, h3]
        · simp [reqStep, h1, h2, h3]

theorem req_errors_eq (index_data : List Category) (dir : List String) :
    (check_required_thumbnails index_data dir).2 = (reqEntries index_data).filterMap
      (fun t => if t.name.getD "" ≠ "" ∧ t.mediaSubtype.getD "" ≠ "" ∧
          thumbName (t.name.getD "") 1 (t.mediaSubtype.getD "") ∉ dir
        then some (reqMsg (t.name.getD "") (t.mediaSubtype.getD "")) else none) := by
  simp [check_required_thumbnails, req_foldl_eq]

/-! ## validate_schema basics -/

theorem validate_schema_fst_iff (o : SchemaOutcome) :
    (validate_schema o).1 = true ↔ (validate_schema o).2 = [] := by
  cases o <;> simp [validate_schema]

/-! ## String pattern lemmas -/

theorem string_append_cancel_left {p a b : String} (h : p ++ a = p ++ b) : a = b := by
  have hd : p.data ++ a.data = p.data ++ b.data := by
    rw [← String.data_append, ← String.data_append, h]
  exact String.ext (List.append_cancel_left hd)

theorem thumbName_data (name ms : String) (i : Nat) :
    (thumbName name i ms).data =
      name.data ++ ['-'] ++ (toString i).data ++ ['.'] ++ ms.data := by
  have h1 : "-".data = ['-'] := rfl
  have h2 : ".".data = ['.'] := rfl
  simp [thumbName, String.data_append, h1, h2]

theorem thumbName_ten_ne (name ms : String) {i : Nat} (hlo : 1 ≤ i) (hhi : i ≤ 9) :
    thumbName name 10 ms ≠ thumbName name i ms := by
  intro heq
  have hlen := congrArg (fun s => s.data.length) heq
  have hi : (toString i).data.length = 1 := by interval_cases i <;> rfl
  have h10 : (toString (10 : Nat)).data.length = 2 := rfl
  simp only [thumbName_data, List.length_append, hi, h10, List.length_cons,
    List.length_nil] at hlen
  omega

theorem mediaMatches_thumb10 (name ms : String) :
    mediaMatches (thumbName name 10 ms) name = true := by
  have hdata : (thumbName name 10 ms).data =
      (name.data ++ ['-']) ++ ('1' :: '0' :: '.' :: ms.data) := by
    rw [thumbName_data]
    rw [show (toString (10 : Nat)).data = ['1', '0'] from rfl]
    simp
  unfold mediaMatches
  rw [Bool.and_eq_true]
  constructor
  · unfold pyStartsWith
    rw [ List.isPrefixOf_iff_prefix, String.data_append,
      show "-".data = ['-'] from rfl, hdata]
    exact List.prefix_append _ _
  · have hdrop : pyDrop (thumbName name 10 ms) (pyLen name + 1) =
        ⟨'1' :: '0' :: '.' :: ms.data⟩ := by
      unfold pyDrop pyLen
      rw [hdata, show name.data.length + 1 = (name.data ++ ['-']).length from by simp,
        List.drop_left]
    rw [hdrop]
    rw [show pySplitDotHead ⟨'1' :: '0' :: '.' :: ms.data⟩ = "10" from rfl]
    rfl

/-! ## The driver: exit code is determined by the aggregated errors -/

theorem if_append_of_iff (b : Bool) (E : List String) (hiff : b = true ↔ E = [])
    (A : List String) : (if b then A else A ++ E) = A ++ E := by
  cases b
  · rfl
  · rw [hiff.mp rfl]
    simp

theorem if_nil_of_iff (b : Bool) (E : List String) (hiff : b = true ↔ E = []) :
    (if b then ([] : List String) else E) = E := by
  cases b
  · rfl
  · rw [hiff.mp rfl]
    simp

theorem dup_fst_iff (index_data : List Category) :
    (check_duplicate_names index_data).1 = true ↔ (check_duplicate_names index_data).2 = [] := by
  simp [check_duplicate_names]

theorem req_fst_iff (index_data : List Category) (dir : List String) :
    (check_required_thumbnails index_data dir).1 = true ↔
      (check_required_thumbnails index_data dir).2 = [] := by
  simp [check_required_thumbnails]

theorem mem_snd_ite {c : Prop} [Decidable c] {α β : Type} {a b : α × List β} {x : β}
    (ha : x ∈ a.2) (hb : x ∈ b.2) : x ∈ (if c then a else b).2 := by
  split
  · exact ha
  · exact hb

theorem main_exit_eq (w : World) (index_data : List Category)
    (h1 : w.indexExists = true) (h2 : w.schemaExists = true)
    (h3 : w.indexLoad = .ok index_data) :
    (main w).1 = if (aggregated_errors w index_data).isEmpty then 0 else 1 := by
  simp only [main, h1, h2, h3, Bool.not_true, Bool.false_eq_true, if_false, ite_false]
  rw [if_nil_of_iff _ _ (validate_schema_fst_iff w.schemaOutcome),
    if_append_of_iff _ _ (dup_fst_iff index_data),
    if_append_of_iff _ _ (req_fst_iff index_data w.fs)]
  simp only [aggregated_errors]
  split <;> rename_i hcond <;> simp [hcond]

/-! ## Claim theorems -/

/-- C3: when both input files load successfully (index.json and
index.schema.json exist and index.json parses), the exit code is 0 iff
the aggregated error list of all four checks is empty and 1 iff it is
nonempty; warnings play no role in this determination. -/
theorem c3_exit_code_iff (w : World) (index_data : List Category)
    (h1 : w.indexExists = true) (h2 : w.schemaExists = true)
    (h3 : w.indexLoad = .ok index_data) :
    ((main w).1 = 0 ↔ aggregated_errors w index_data = []) ∧
    ((main w).1 = 1 ↔ aggregated_errors w index_data ≠ []) := by
  have hm := main_exit_eq w index_data h1 h2 h3
  cases hA : aggregated_errors w index_data with
  | nil =>
    rw [hA] at hm
    simp only [List.isEmpty_nil, if_true, ite_true] at hm
    simp [hm]
  | cons a l =>
    rw [hA] at hm
    simp only [List.isEmpty_cons, if_false, ite_false] at hm
    simp [hm]

/-- C3 witness: evaluating the theorem on the empty manifest in a world
where everything loads. -/
theorem c3_witness :
    ((main ⟨true, true, .ok [], .ok, [], false⟩).1 = 0 ↔
      aggregated_errors ⟨true, true, .ok [], .ok, [], false⟩ [] = []) ∧
    ((main ⟨true, true, .ok [], .ok, [], false⟩).1 = 1 ↔
      aggregated_errors ⟨true, true, .ok [], .ok, [], false⟩ [] ≠ []) :=
  c3_exit_code_iff ⟨true, true, .ok [], .ok, [], false⟩ [] rfl rfl rfl

/-- C4: in a manifest where exactly one name `n` occurs twice — first in
a category titled `tA`, then in one titled `tB`, in manifest traversal
order — and every other name occurs at most once, the duplicate-name
check reports exactly one error, naming `tA` as the original category and
`tB` as the current one; the first occurrence itself is not flagged. -/
theorem c4_duplicate_pair_single_error (index_data : List Category) (n tA tB : String)
    (hf : (dupEntries index_data).filter (fun p => p.2 == n) = [(tA, n), (tB, n)])
    (hnd : (((dupEntries index_data).map Prod.snd).filter (fun m => !(m == n))).Nodup) :
    check_duplicate_names index_data = (false, [dupMsg n tA tB]) := by
  have hd : dupGo [] (dupEntries index_data) = [dupMsg n tA tB] :=
    dupGo_pair rfl hf (fun p hp hpn => rfl) hnd
  simp [check_duplicate_names, hd]

/-- C4 witness: two categories A and B each holding a template named
flux_basic. -/
theorem c4_witness :
    check_duplicate_names
      [⟨some "A", some [⟨some "flux_basic", none⟩]⟩,
        ⟨some "B", some [⟨some "flux_basic", none⟩]⟩] =
      (false, [dupMsg "flux_basic" "A" "B"]) :=
  c4_duplicate_pair_single_error _ "flux_basic" "A" "B" (by decide) (by decide)

/-- C5: an entry whose name is empty (or absent) contributes exactly one
error naming the enclosing category's title, leaves the
referenced-workflows and referenced-thumbnails sets unchanged, consults
the directory for nothing (the step is independent of the directory
listing), and its error reaches the check's error list. -/
theorem c5_empty_name_contribution (dir dir' : List String)
    (acc : List String × List String × List String) (e : Option String × Template)
    (h : e.2.name.getD "" = "") :
    fcStep dir acc e = (acc.1 ++ [missingNameMsg e.1], acc.2.1, acc.2.2) ∧
    fcStep dir acc e = fcStep dir' acc e ∧
    (∀ index_data : List Category, e ∈ fcEntries index_data →
      missingNameMsg e.1 ∈ (check_file_consistency index_data dir).2.1) := by
  refine ⟨?_, ?_, ?_⟩
  · simp [fcStep, h]
  · simp [fcStep, h]
  · intro index_data hmem
    exact fc_missingName_mem index_data dir hmem h

/-- C5 witness: a nameless template in category Cat. -/
theorem c5_witness :
    (fcStep ["x.json"] ([], [], []) (some "Cat", ⟨none, none⟩) =
      (([] : List String) ++ [missingNameMsg (some "Cat")], [], [])) ∧
    (fcStep ["x.json"] ([], [], []) (some "Cat", ⟨none, none⟩) =
      fcStep [] ([], [], []) (some "Cat", ⟨none, none⟩)) ∧
    (∀ index_data : List Category,
      (some "Cat", (⟨none, none⟩ : Template)) ∈ fcEntries index_data →
      missingNameMsg (some "Cat") ∈ (check_file_consistency index_data ["x.json"]).2.1) :=
  c5_empty_name_contribution ["x.json"] [] ([], [], []) (some "Cat", ⟨none, none⟩) rfl

/-- C6: the required-thumbnail check emits one error per template that has
a non-empty name and non-empty mediaSubtype whose file
`<name>-1.<mediaSubtype>` is absent, with a message naming exactly that
file; templates missing either field contribute nothing. -/
theorem c6_required_thumbnail_errors (index_data : List Category) (dir : List String) :
    (check_required_thumbnails index_data dir).2 = (reqEntries index_data).filterMap
      (fun t => if t.name.getD "" ≠ "" ∧ t.mediaSubtype.getD "" ≠ "" ∧
          thumbName (t.name.getD "") 1 (t.mediaSubtype.getD "") ∉ dir
        then some (reqMsg (t.name.getD "") (t.mediaSubtype.getD "")) else none) ∧
    (∀ s, s ∈ (check_required_thumbnails index_data dir).2 ↔
      ∃ t, t ∈ reqEntries index_data ∧ t.name.getD "" ≠ "" ∧
        t.mediaSubtype.getD "" ≠ "" ∧
        thumbName (t.name.getD "") 1 (t.mediaSubtype.getD "") ∉ dir ∧
        s = reqMsg (t.name.getD "") (t.mediaSubtype.getD "")) := by
  have heq := req_errors_eq index_data dir
  refine ⟨heq, ?_⟩
  intro s
  rw [heq, List.mem_filterMap]
  constructor
  · rintro ⟨t, ht, hf⟩
    by_cases hc : t.name.getD "" ≠ "" ∧ t.mediaSubtype.getD "" ≠ "" ∧
        thumbName (t.name.getD "") 1 (t.mediaSubtype.getD "") ∉ dir
    · rw [if_pos hc] at hf
      exact ⟨t, ht, hc.1, hc.2.1, hc.2.2, (Option.some.inj hf).symm⟩
    · rw [if_neg hc] at hf
      exact absurd hf (by simp)
  · rintro ⟨t, ht, hn, hm, hd, rfl⟩
    exact ⟨t, ht, if_pos ⟨hn, hm, hd⟩⟩

/-- C7: under a fixed directory listing, every member of the
referenced-thumbnails set exists on disk, so the defensive
referenced-thumbnail re-check contributes no error: the file-consistency
error list consists solely of the missing-name errors and the
missing-workflow errors. -/
theorem c7_thumbnail_recheck_unreachable (index_data : List Category) (dir : List String) :
    fcMissingThumbs (fcPhase1 index_data dir).2.2 dir = [] ∧
    (check_file_consistency index_data dir).2.1 =
      (fcPhase1 index_data dir).1 ++
        (fcMissingWorkflows (fcPhase1 index_data dir).2.1 dir).map wfMissingMsg := by
  refine ⟨fcMissingThumbs_phase1_nil index_data dir, ?_⟩
  simp [check_file_consistency, fcMissingThumbs_phase1_nil index_data dir]

/-- C9: the duplicate-name check records the empty string like any other
name; every later template with a missing or empty name is reported as a
duplicate, on top of the missing-name error that the file-consistency
check emits for each such template. -/
theorem c9_empty_names_not_skipped :
    (∀ (seen : List (String × String)) (t : String) (rest : List (String × String)),
      lookupSeen "" seen = none →
      dupGo seen ((t, "") :: rest) = dupGo (("", t) :: seen) rest) ∧
    (∀ (index_data : List Category) (p s : List (String × String)) (t : String),
      dupEntries index_data = p ++ (t, "") :: s → "" ∈ p.map Prod.snd →
      ∃ t0, dupMsg "" t0 t ∈ (check_duplicate_names index_data).2) ∧
    (∀ (index_data : List Category) (dir : List String) (ct : Option String)
        (tpl : Template),
      (ct, tpl) ∈ fcEntries index_data → tpl.name.getD "" = "" →
      missingNameMsg ct ∈ (check_file_consistency index_data dir).2.1) := by
  refine ⟨?_, ?_, ?_⟩
  · intro seen t rest h
    simp [dupGo, h]
  · intro index_data p s t heq hmem
    obtain ⟨t0, ht0⟩ := dupGo_mem p s [] t "" (Or.inr hmem)
    refine ⟨t0, ?_⟩
    simp only [check_duplicate_names]
    rw [heq]
    exact ht0
  · intro index_data dir ct tpl hmem hname
    exact fc_missingName_mem index_data dir hmem hname

/-- C9 witness: one category A with two nameless templates — the second is
reported as a duplicate of the first, and the missing-name error is
present as well. -/
theorem c9_witness :
    (∃ t0, dupMsg "" t0 "A" ∈
      (check_duplicate_names [⟨some "A", some [⟨some "", none⟩, ⟨none, none⟩]⟩]).2) ∧
    missingNameMsg (some "A") ∈
      (check_file_consistency [⟨some "A", some [⟨some "", none⟩, ⟨none, none⟩]⟩] []).2.1 :=
  ⟨c9_empty_names_not_skipped.2.1 [⟨some "A", some [⟨some "", none⟩, ⟨none, none⟩]⟩]
      [("A", "")] [] "A" (by decide) (by decide),
    c9_empty_names_not_skipped.2.2 [⟨some "A", some [⟨some "", none⟩, ⟨none, none⟩]⟩]
      [] (some "A") ⟨some "", none⟩ (by decide) rfl⟩

/-- C10: a category without a templates field behaves exactly as if it
were not there at all for the file-consistency, duplicate-name and
required-thumbnail checks: removing it changes none of their outputs. -/
theorem c10_missing_templates_field (l1 l2 : List Category) (c : Category)
    (dir : List String) (h : c.templates = none) :
    check_file_consistency (l1 ++ c :: l2) dir = check_file_consistency (l1 ++ l2) dir ∧
    check_duplicate_names (l1 ++ c :: l2) = check_duplicate_names (l1 ++ l2) ∧
    check_required_thumbnails (l1 ++ c :: l2) dir =
      check_required_thumbnails (l1 ++ l2) dir := by
  have he1 : fcEntries (l1 ++ c :: l2) = fcEntries (l1 ++ l2) := by
    simp [fcEntries, h]
  have he2 : dupEntries (l1 ++ c :: l2) = dupEntries (l1 ++ l2) := by
    simp [dupEntries, h]
  have he3 : reqEntries (l1 ++ c :: l2) = reqEntries (l1 ++ l2) := by
    simp [reqEntries, h]
  refine ⟨?_, ?_, ?_⟩
  · simp [check_file_consistency, fcPhase1, he1]
  · simp [check_duplicate_names, he2]
  · simp [check_required_thumbnails, he3]

/-- C10 witness: a title-only category inserted into a one-category
manifest. -/
theorem c10_witness :
    check_file_consistency
        ([⟨some "A", some [⟨some "x", none⟩]⟩] ++ (⟨some "Empty", none⟩ : Category)
          :: [⟨some "B", none⟩]) ["x.json"] =
      check_file_consistency ([⟨some "A", some [⟨some "x", none⟩]⟩] ++ [⟨some "B", none⟩])
        ["x.json"] ∧
    check_duplicate_names
        ([⟨some "A", some [⟨some "x", none⟩]⟩] ++ (⟨some "Empty", none⟩ : Category)
          :: [⟨some "B", none⟩]) =
      check_duplicate_names ([⟨some "A", some [⟨some "x", none⟩]⟩] ++ [⟨some "B", none⟩]) ∧
    check_required_thumbnails
        ([⟨some "A", some [⟨some "x", none⟩]⟩] ++ (⟨some "Empty", none⟩ : Category)
          :: [⟨some "B", none⟩]) ["x.json"] =
      check_required_thumbnails ([⟨some "A", some [⟨some "x", none⟩]⟩] ++ [⟨some "B", none⟩])
        ["x.json"] :=
  c10_missing_templates_field [⟨some "A", some [⟨some "x", none⟩]⟩] [⟨some "B", none⟩]
    ⟨some "Empty", none⟩ ["x.json"] rfl

/-- C1 counterexample: with `flux_basic` declared with
`mediaSubtype = "webp"` and the file `flux_basic-1.png` on disk, the
check emits NO warning at all — the claim's predicted orphan warning for
`flux_basic-1.png` does not occur, because the orphan-media pattern of
line 108 matches `<name>-<digits>.<any extension>` and never consults the
referenced-thumbnails set. -/
theorem c1_counterexample :
    check_file_consistency [⟨some "Basics", some [⟨some "flux_basic", some "webp"⟩]⟩]
        ["flux_basic.json", "flux_basic-1.png"] = (true, [], []) ∧
    omMsg "flux_basic-1.png" ∉
      (check_file_consistency [⟨some "Basics", some [⟨some "flux_basic", some "webp"⟩]⟩]
        ["flux_basic.json", "flux_basic-1.png"]).2.2 := by
  refine ⟨by decide, ?_⟩
  decide

/-- C1 (amended): `flux_basic-1.png` is exempt from the orphan warning
even though `mediaSubtype = "webp"` (the run emits no warning for it);
in general a media file is exempt from the orphan warning exactly when it
starts with `<name>-` for some referenced template name and the remainder
up to the first `.` is all-digit — the declared extension is not
consulted. -/
theorem c1_orphan_media_pattern :
    (check_file_consistency [⟨some "Basics", some [⟨some "flux_basic", some "webp"⟩]⟩]
        ["flux_basic.json", "flux_basic-1.png"]).2.2 = [] ∧
    ∀ (refW dir : List String) (mf : String),
      mf ∈ fcPotentialOrphans refW dir ↔
        (mf ∈ fcMediaFiles dir ∧
          ¬ ∃ tn, tn ∈ fcRefNames refW ∧
            pyStartsWith mf (tn ++ "-") = true ∧
            pyIsdigit (pySplitDotHead (pyDrop mf (pyLen tn + 1))) = true) := by
  refine ⟨by decide, ?_⟩
  intro refW dir mf
  unfold fcPotentialOrphans
  rw [List.mem_filter]
  simp only [Bool.not_eq_true', List.any_eq_false, mediaMatches, Bool.and_eq_true]
  constructor
  · rintro ⟨hmf, hall⟩
    refine ⟨hmf, ?_⟩
    rintro ⟨tn, htn, hs, hd⟩
    exact hall tn htn ⟨hs, hd⟩
  · rintro ⟨hmf, hnone⟩
    refine ⟨hmf, ?_⟩
    intro tn htn hcontra
    exact hnone ⟨tn, htn, hcontra.1, hcontra.2⟩

/-- C8 counterexample: template `x` with `mediaSubtype = "json"` and the
on-disk file `x-10.json` (which is `<name>-10.<mediaSubtype>` for this
template): the run DOES emit a warning about that file (as an
unreferenced workflow file), contradicting the claim that no warning or
error about it is produced. -/
theorem c8_counterexample :
    owMsg "x-10.json" ∈
      (check_file_consistency [⟨some "Media", some [⟨some "x", some "json"⟩]⟩]
        ["x.json", "x-10.json"]).2.2 := by
  decide

/-- C8 (amended): (a) the referenced-thumbnails set contains exactly the
files `<name>-N.<mediaSubtype>` with N in 1..9 that exist on disk, taken
over the templates with non-empty name and mediaSubtype; (b) the probe
bound is 9: `<name>-10.<mediaSubtype>` is never among the file names a
template's own probe loop constructs; (c) if `<name>-10.<mediaSubtype>`
is on disk and is not itself a `.json` file (and stripping `.json` from
the workflow name recovers `name`), the run emits no orphan-media
warning for it and no error names it. -/
theorem c8_thumbnail_probe_bound (index_data : List Category) (dir : List String) :
    (∀ s, s ∈ (fcPhase1 index_data dir).2.2 ↔
      ∃ ct t, (ct, t) ∈ fcEntries index_data ∧ t.name.getD "" ≠ "" ∧
        t.mediaSubtype.getD "" ≠ "" ∧
        ∃ i ∈ List.range' 1 9,
          s = thumbName (t.name.getD "") i (t.mediaSubtype.getD "") ∧ s ∈ dir) ∧
    (∀ name ms : String,
      thumbName name 10 ms ∉ (List.range' 1 9).map (fun i => thumbName name i ms)) ∧
    (∀ (ct : Option String) (t : Template) (name ms : String),
      (ct, t) ∈ fcEntries index_data → t.name.getD "" = name → name ≠ "" →
      t.mediaSubtype.getD "" = ms → ms ≠ "" →
      pyReplace (workflowName name) ".json" "" = name →
      thumbName name 10 ms ∈ dir →
      pyEndsWith (thumbName name 10 ms) ".json" = false →
      thumbName name 10 ms ∉ fcPotentialOrphans (fcPhase1 index_data dir).2.1 dir ∧
      thumbName name 10 ms ∉ fcOrphanedWorkflows (fcPhase1 index_data dir).2.1 dir ∧
      thumbName name 10 ms ∉ fcMissingWorkflows (fcPhase1 index_data dir).2.1 dir ∧
      fcMissingThumbs (fcPhase1 index_data dir).2.2 dir = [] ∧
      ∀ m ∈ (check_required_thumbnails index_data dir).2,
        m ≠ "Missing required thumbnail: " ++ thumbName name 10 ms) := by
  refine ⟨?_, ?_, ?_⟩
  · intro s
    unfold fcPhase1
    rw [mem_fcFold_refT]
    simp
  · intro name ms hmem
    rw [List.mem_map] at hmem
    obtain ⟨i, hi, heq⟩ := hmem
    obtain ⟨hlo, hhi⟩ := List.mem_range'_1.mp hi
    exact thumbName_ten_ne name ms hlo (by omega) heq.symm
  · intro ct t name ms hmem hname hnne hms hmsne hclean hdisk hjson
    have hrefW : workflowName name ∈ (fcPhase1 index_data dir).2.1 := by
      unfold fcPhase1
      rw [← hname]
      exact fcFold_refW_mem dir _ hmem (by rw [hname]; exact hnne)
    refine ⟨?_, ?_, ?_, fcMissingThumbs_phase1_nil index_data dir, ?_⟩
    · intro hmemPO
      have hfil := List.mem_filter.mp hmemPO
      have hany := hfil.2
      simp only [Bool.not_eq_true'] at hany
      rw [List.any_eq_false] at hany
      have htn : name ∈ fcRefNames (fcPhase1 index_data dir).2.1 := by
        unfold fcRefNames
        rw [← hclean]
        exact List.mem_map.mpr ⟨workflowName name, hrefW, rfl⟩
      exact (hany name htn) (mediaMatches_thumb10 name ms)
    · intro hmemOW
      have hwf := (List.mem_filter.mp hmemOW).1
      have hend := (List.mem_filter.mp hwf).2
      simp [hjson] at hend
    · intro hmemMW
      have hnd := (List.mem_filter.mp hmemMW).2
      simp [hdisk] at hnd
    · intro m hm hcontra
      have herr := req_errors_eq index_data dir
      rw [herr] at hm
      obtain ⟨t', ht', hf'⟩ := List.mem_filterMap.mp hm
      by_cases hc : t'.name.getD "" ≠ "" ∧ t'.mediaSubtype.getD "" ≠ "" ∧
          thumbName (t'.name.getD "") 1 (t'.mediaSubtype.getD "") ∉ dir
      · rw [if_pos hc] at hf'
        have hmeq := Option.some.inj hf'
        rw [← hmeq] at hcontra
        unfold reqMsg at hcontra
        have hth := string_append_cancel_left hcontra
        rw [hth] at hc
        exact hc.2.2 hdisk
      · rw [if_neg hc] at hf'
        exact Option.noConfusion hf'

/-- C8 witness: template `y` with webp thumbnails and `y-10.webp` on
disk — the file draws no orphan-media warning, no orphaned-workflow
warning, and no error names it. -/
theorem c8_witness :
    thumbName "y" 10 "webp" ∉
      fcPotentialOrphans (fcPhase1 [⟨some "M", some [⟨some "y", some "webp"⟩]⟩]
        ["y-10.webp"]).2.1 ["y-10.webp"] ∧
    thumbName "y" 10 "webp" ∉
      fcOrphanedWorkflows (fcPhase1 [⟨some "M", some [⟨some "y", some "webp"⟩]⟩]
        ["y-10.webp"]).2.1 ["y-10.webp"] ∧
    thumbName "y" 10 "webp" ∉
      fcMissingWorkflows (fcPhase1 [⟨some "M", some [⟨some "y", some "webp"⟩]⟩]
        ["y-10.webp"]).2.1 ["y-10.webp"] ∧
    fcMissingThumbs (fcPhase1 [⟨some "M", some [⟨some "y", some "webp"⟩]⟩]
      ["y-10.webp"]).2.2 ["y-10.webp"] = [] ∧
    ∀ m ∈ (check_required_thumbnails [⟨some "M", some [⟨some "y", some "webp"⟩]⟩]
        ["y-10.webp"]).2,
      m ≠ "Missing required thumbnail: " ++ thumbName "y" 10 "webp" :=
  (c8_thumbnail_probe_bound [⟨some "M", some [⟨some "y", some "webp"⟩]⟩] ["y-10.webp"]).2.2
    (some "M") ⟨some "y", some "webp"⟩ "y" "webp"
    (by decide) rfl (by decide) rfl (by decide) (by decide) (by decide) (by decide)

/-- C2 counterexample: when the schema FILE exists but fails to parse as
JSON (a json.JSONDecodeError caught by the generic handler inside
validate_schema), the run does NOT exit before the checks: the
file-consistency stage line is printed — check-stage output exists —
contradicting the claim that none of the four checks runs. (The exit
code is still 1, via the collected schema error.) -/
theorem c2_counterexample :
    (main ⟨true, true, .ok [], .exn "Expecting value: line 1 column 1 (char 0)", [],
      false⟩).1 = 1 ∧
    stage2Line ∈ (main ⟨true, true, .ok [],
      .exn "Expecting value: line 1 column 1 (char 0)", [], false⟩).2 := by
  refine ⟨by decide, ?_⟩
  decide

/-- C2 (amended): a missing manifest, a missing schema file, or a manifest
that fails to parse each aborts the run immediately with exit code 1 and
a single distinct message after the two header lines, with no check-stage
output; a schema file that fails to parse as JSON is instead caught
inside the schema check, the remaining checks still run (check-stage
output is produced), and the process exits 1. -/
theorem c2_fatal_input_handling (w : World) :
    (w.indexExists = false → main w = (1, headerLines ++ [idxMissingMsg])) ∧
    (w.indexExists = true → w.schemaExists = false →
      main w = (1, headerLines ++ [schMissingMsg])) ∧
    (∀ e, w.indexExists = true → w.schemaExists = true → w.indexLoad = .error e →
      main w = (1, headerLines ++ [loadErrMsg e])) ∧
    (∀ m index_data, w.indexExists = true → w.schemaExists = true →
      w.indexLoad = .ok index_data → w.schemaOutcome = .exn m →
      (main w).1 = 1 ∧ stage2Line ∈ (main w).2) := by
  refine ⟨?_, ?_, ?_, ?_⟩
  · intro h
    simp [main, h]
  · intro h1 h2
    simp [main, h1, h2]
  · intro e h1 h2 h3
    simp [main, h1, h2, h3]
  · intro m index_data h1 h2 h3 ho
    constructor
    · rw [main_exit_eq w index_data h1 h2 h3]
      simp [aggregated_errors, validate_schema, ho]
    · simp only [main, h1, h2, h3, Bool.not_true, Bool.false_eq_true, if_false, ite_false]
      apply mem_snd_ite <;> simp

/-- C2 witness: a world with index.json absent. -/
theorem c2_witness :
    main ⟨false, true, .ok [], .ok, [], false⟩ = (1, headerLines ++ [idxMissingMsg]) :=
  (c2_fatal_input_handling ⟨false, true, .ok [], .ok, [], false⟩).1 rfl

end ValidateTemplates
